import Mathlib

/-!
Verification of the task-management core (services/task/taskRules.ts).

This file gives a shallow embedding of the task lifecycle and
history-tracking engine: the in-memory task store, the validation rules,
the history recorder, the status lifecycle (including the overdue sweep),
and the filter/sort query engine. Timestamps are modelled as integers
(milliseconds of naive local time since the epoch); JavaScript
`new Date(year, month - 1, day)` and `setHours` calls are modelled by the
standard civil-calendar day-number arithmetic, which coincides with the
ECMAScript local-time semantics used by the program (no timezone is ever
involved). Identifiers (uuids in the program) are modelled by a fresh-id
counter threaded through the store. Strings that the program stores in
DD/MM/YYYY and HH:MM formats are modelled by their parsed record values;
equality of those records coincides with string equality because the
formats are fixed-width.
-/

namespace TaskMgmt

/-- Task status enumeration (enum TaskStatus: Pendente, Concluída, Vencida). -/
inductive TaskStatus
  | Pendente
  | Concluida
  | Vencida
deriving DecidableEq, Repr

/-- Importance enumeration (enum TaskImportance: Alta, Média, Baixa). -/
inductive TaskImportance
  | Alta
  | Media
  | Baixa
deriving DecidableEq, Repr

/-- A parsed DD/MM/YYYY due-date string. -/
structure DateDMY where
  day : Nat
  month : Nat
  year : Nat
deriving DecidableEq, Repr

/-- A parsed HH:MM due-time string. -/
structure TimeHM where
  hour : Nat
  minute : Nat
deriving DecidableEq, Repr

/-- The string value of a status, as stored by the program. -/
def statusStr : TaskStatus → String
  | .Pendente => "Pendente"
  | .Concluida => "Concluída"
  | .Vencida => "Vencida"

/-- The string value of an importance level, as stored by the program. -/
def importanceStr : TaskImportance → String
  | .Alta => "Alta"
  | .Media => "Média"
  | .Baixa => "Baixa"

/-- Two-digit zero padding used by the DD/MM/YYYY and HH:MM renderings. -/
def pad2 (n : Nat) : String :=
  if n < 10 then "0" ++ toString n else toString n

/-- The DD/MM/YYYY string of a date record. -/
def dateStr (d : DateDMY) : String :=
  pad2 d.day ++ "/" ++ pad2 d.month ++ "/" ++ toString d.year

/-- The HH:MM string of a time record. -/
def timeStr (t : TimeHM) : String :=
  pad2 t.hour ++ ":" ++ pad2 t.minute

/-- JavaScript String(x) on a nullable string-valued field. -/
def jsString (f : α → String) : Option α → String
  | some a => f a
  | none => "null"

/-- Days from the epoch of a civil date with month in 1..12
(the standard days-from-civil algorithm; day may be out of range,
it only shifts the result linearly, as in ECMAScript MakeDay). -/
def daysFromCivil (y m d : Int) : Int :=
  let y1 : Int := if m ≤ 2 then y - 1 else y
  let era : Int := Int.fdiv y1 400
  let yoe : Int := y1 - era * 400
  let mp : Int := if 2 < m then m - 3 else m + 9
  let doy : Int := Int.fdiv (153 * mp + 2) 5 + d - 1
  let doe : Int := yoe * 365 + Int.fdiv yoe 4 - Int.fdiv yoe 100 + doy
  era * 146097 + doe - 719468

/-- ECMAScript MakeDay(year, month0, day) with a 0-based month that may be
out of range: months are normalised into the year as in new Date(y, m, d). -/
def jsMakeDay (year month0 day : Int) : Int :=
  daysFromCivil (year + Int.fdiv month0 12) (Int.emod month0 12 + 1) day

/-- Civil date of an epoch day number (inverse of daysFromCivil); used to
model now.getFullYear() and now.getMonth(). Returns (year, month 1..12, day). -/
def civilFromDays (z0 : Int) : Int × Int × Int :=
  let z : Int := z0 + 719468
  let era : Int := Int.fdiv z 146097
  let doe : Int := z - era * 146097
  let yoe : Int :=
    Int.fdiv (doe - Int.fdiv doe 1460 + Int.fdiv doe 2936 - Int.fdiv doe 146096) 365
  let y : Int := yoe + era * 400
  let doy : Int := doe - (365 * yoe + Int.fdiv yoe 4 - Int.fdiv yoe 100)
  let mp : Int := Int.fdiv (5 * doy + 2) 153
  let d : Int := doy - Int.fdiv (153 * mp + 2) 5 + 1
  let m : Int := if mp < 10 then mp + 3 else mp - 9
  (if m ≤ 2 then y + 1 else y, m, d)

def msPerDay : Int := 86400000

def msPerHour : Int := 3600000

def msPerMinute : Int := 60000

/-- Epoch day number of a DD/MM/YYYY date: new Date(year, month - 1, day). -/
def dateToDays (d : DateDMY) : Int :=
  jsMakeDay (d.year : Int) ((d.month : Int) - 1) (d.day : Int)

/-- Timestamp (ms) of local midnight of a DD/MM/YYYY date. -/
def dateAtMidnightMs (d : DateDMY) : Int :=
  dateToDays d * msPerDay

/-- Timestamp (ms) of a DD/MM/YYYY date at hour:minute:second
(models building the midnight Date and then calling setHours). -/
def dateAtTimeMs (d : DateDMY) (h mi s : Int) : Int :=
  dateAtMidnightMs d + h * msPerHour + mi * msPerMinute + s * 1000

/-- Timestamp (ms) of local midnight of the day containing `now`
(models new Date(now.getFullYear(), now.getMonth(), now.getDate()) and
today.setHours(0, 0, 0, 0)). -/
def todayMidnightMs (now : Int) : Int :=
  Int.fdiv now msPerDay * msPerDay

/-- The effective due-moment used by the overdue sweep: the due-date at the
given due-time, or at 23:59:59 when no due-time is set. -/
def effectiveDueMs (dv : DateDMY) (hv : Option TimeHM) : Int :=
  match hv with
  | some t => dateAtTimeMs dv (t.hour : Int) (t.minute : Int) 0
  | none => dateAtTimeMs dv 23 59 59

/-- The due-moment used by the Próximas-ao-vencimento period filter: the
due-date at the given due-time, or at local midnight when no due-time is
set (the filter never applies the 23:59:59 end-of-day default). -/
def proximasDueMs (dv : DateDMY) (hv : Option TimeHM) : Int :=
  match hv with
  | some t => dateAtTimeMs dv (t.hour : Int) (t.minute : Int) 0
  | none => dateAtMidnightMs dv

/-- interface TaskEntity. -/
structure TaskEntity where
  id : Nat
  titulo : String
  descricao : Option String
  dataVencimento : Option DateDMY
  horaVencimento : Option TimeHM
  importancia : TaskImportance
  status : TaskStatus
  dataCriacao : Int
  dataAtualizacao : Int
deriving DecidableEq, Repr

/-- interface TaskCreateRequest. -/
structure TaskCreateRequest where
  titulo : String
  descricao : Option String
  dataVencimento : Option DateDMY
  horaVencimento : Option TimeHM
  importancia : TaskImportance
deriving DecidableEq, Repr

/-- interface TaskUpdateRequest. -/
structure TaskUpdateRequest where
  titulo : String
  descricao : Option String
  dataVencimento : Option DateDMY
  horaVencimento : Option TimeHM
  importancia : TaskImportance
deriving DecidableEq, Repr

/-- interface HistoryEntry. -/
structure HistoryEntry where
  id : Nat
  idTarefa : Nat
  dataAlteracao : Int
  tipoAlteracao : String
  campoAlterado : Option String
  valorAnterior : Option String
  valorNovo : Option String
  origemAlteracao : String
deriving DecidableEq, Repr

/-- interface TaskListFilters. -/
structure TaskListFilters where
  filterStatus : String
  filterImportance : String
  filterPeriod : String
  orderBy : String
  orderDirection : String
  searchTerm : Option String
deriving DecidableEq, Repr

/-- The module-level mutable state: the tasks array, the history array and
the supply of fresh identifiers (uuids in the program). -/
structure Store where
  tasks : List TaskEntity
  history : List HistoryEntry
  nextId : Nat
deriving DecidableEq, Repr

/-- Business-rule failures thrown by the service. -/
inductive TaskError
  | tituloObrigatorio
  | tituloMuitoLongo
  | descricaoMuitoLonga
  | alteracaoNaoPermitida
deriving DecidableEq, Repr

/-- Builds one history entry (used in statements and proofs). -/
def mkEntry (hid tid : Nat) (now : Int) (tipo : String)
    (campo va vn : Option String) (origem : String) : HistoryEntry :=
  { id := hid, idTarefa := tid, dataAlteracao := now, tipoAlteracao := tipo,
    campoAlterado := campo, valorAnterior := va, valorNovo := vn,
    origemAlteracao := origem }

/-- recordHistory: appends one entry with a fresh identifier and the
current timestamp; never fails. -/
def recordHistory (now : Int) (st : Store) (idTarefa : Nat) (tipo : String)
    (campo valorAnt valorNov : Option String) (origem : String) : Store :=
  { st with
    history := st.history ++
      [{ id := st.nextId, idTarefa := idTarefa, dataAlteracao := now,
         tipoAlteracao := tipo, campoAlterado := campo, valorAnterior := valorAnt,
         valorNovo := valorNov, origemAlteracao := origem }],
    nextId := st.nextId + 1 }

/-- JavaScript String.prototype.trim: the characters of s with leading
and trailing whitespace removed. -/
def trimChars (s : String) : List Char :=
  (((s.toList).dropWhile Char.isWhitespace).reverse.dropWhile Char.isWhitespace).reverse

/-- The validation applied identically by taskCreate and taskUpdate:
title required and at most 100 characters, description at most 500. -/
def validateFields (titulo : String) (descricao : Option String) : Option TaskError :=
  if (trimChars titulo).length = 0 then some .tituloObrigatorio
  else if 100 < titulo.length then some .tituloMuitoLongo
  else if (match descricao with | some d => decide (500 < d.length) | none => false : Bool) then
    some .descricaoMuitoLonga
  else none

/-- taskCreate: validates, pushes a new Pendente task and records one
Criação entry. On a validation failure the store is untouched. -/
def taskCreate (now : Int) (st : Store) (data : TaskCreateRequest) :
    Except TaskError TaskEntity × Store :=
  match validateFields data.titulo data.descricao with
  | some e => (.error e, st)
  | none =>
    let newTask : TaskEntity :=
      { id := st.nextId, titulo := data.titulo, descricao := data.descricao,
        dataVencimento := data.dataVencimento, horaVencimento := data.horaVencimento,
        importancia := data.importancia, status := .Pendente,
        dataCriacao := now, dataAtualizacao := now }
    let st1 : Store := { st with tasks := st.tasks ++ [newTask], nextId := st.nextId + 1 }
    (.ok newTask, recordHistory now st1 newTask.id "Criação" none none none "Manual")

/-- taskGet: tasks.find, null modelled as none. -/
def taskGet (st : Store) (id : Nat) : Option TaskEntity :=
  st.tasks.find? (fun t => t.id == id)

/-- tasks[taskIndex] = ... : replace the first element matching p. -/
def updateFirst (p : TaskEntity → Bool) (f : TaskEntity → TaskEntity) :
    List TaskEntity → List TaskEntity
  | [] => []
  | t :: ts => if p t then f t :: ts else t :: updateFirst p f ts

/-- tasks.splice(taskIndex, 1): remove the first element matching p. -/
def removeFirst (p : TaskEntity → Bool) : List TaskEntity → List TaskEntity
  | [] => []
  | t :: ts => if p t then ts else t :: removeFirst p ts

/-- The changedFields list built by taskUpdate: one (field, String(old),
String(new)) triple per tracked field whose old and new values differ,
in the fixed field order of the program. -/
def changedFields (oldTask : TaskEntity) (data : TaskUpdateRequest) :
    List (String × String × String) :=
  (if oldTask.titulo = data.titulo then [] else
    [("titulo", oldTask.titulo, data.titulo)]) ++
  (if oldTask.descricao = data.descricao then [] else
    [("descricao", jsString (fun s => s) oldTask.descricao,
      jsString (fun s => s) data.descricao)]) ++
  (if oldTask.dataVencimento = data.dataVencimento then [] else
    [("dataVencimento", jsString dateStr oldTask.dataVencimento,
      jsString dateStr data.dataVencimento)]) ++
  (if oldTask.horaVencimento = data.horaVencimento then [] else
    [("horaVencimento", jsString timeStr oldTask.horaVencimento,
      jsString timeStr data.horaVencimento)]) ++
  (if oldTask.importancia = data.importancia then [] else
    [("importancia", importanceStr oldTask.importancia,
      importanceStr data.importancia)])

/-- The loop over changedFields: one Edição entry with origin Manual per
changed field, recorded in order. -/
def recordEdits (now : Int) (tid : Nat) :
    List (String × String × String) → Store → Store
  | [], st => st
  | c :: cs, st =>
    recordEdits now tid cs
      (recordHistory now st tid "Edição" (some c.1) (some c.2.1) (some c.2.2) "Manual")

/-- The condition of the Vencida-to-Pendente reset inside taskUpdate: the
stored status is Vencida, the submitted payload carries a due-date, and
that due-date is today or later (midnight to midnight comparison). -/
def resetCond (now : Int) (status : TaskStatus) (dataVenc : Option DateDMY) : Bool :=
  status == .Vencida &&
    (match dataVenc with
     | some dv => decide (todayMidnightMs now ≤ dateAtMidnightMs dv)
     | none => false)

/-- taskUpdate: lookup miss returns none before any validation; then
validation; then the field update, the Vencida-to-Pendente reset when the
submitted due-date is today or later (recorded as Automática), and one
Edição entry per changed field. -/
def taskUpdate (now : Int) (st : Store) (id : Nat) (data : TaskUpdateRequest) :
    Except TaskError (Option TaskEntity) × Store :=
  match st.tasks.find? (fun t => t.id == id) with
  | none => (.ok none, st)
  | some oldTask =>
    match validateFields data.titulo data.descricao with
    | some e => (.error e, st)
    | none =>
      let updated0 : TaskEntity :=
        { oldTask with
          titulo := data.titulo, descricao := data.descricao,
          dataVencimento := data.dataVencimento, horaVencimento := data.horaVencimento,
          importancia := data.importancia, dataAtualizacao := now }
      let updated1 : TaskEntity :=
        if resetCond now updated0.status data.dataVencimento then
          { updated0 with status := .Pendente }
        else updated0
      let st1 : Store :=
        if resetCond now updated0.status data.dataVencimento then
          recordHistory now st id "Alteração de Status" (some "status")
            (some (statusStr .Vencida)) (some (statusStr .Pendente)) "Automática"
        else st
      let st2 : Store := recordEdits now id (changedFields oldTask data) st1
      (.ok (some updated1),
       { st2 with tasks := updateFirst (fun t => t.id == id) (fun _ => updated1) st.tasks })

/-- taskDelete: records the Exclusão entry before removing the task. -/
def taskDelete (now : Int) (st : Store) (id : Nat) : Bool × Store :=
  match st.tasks.find? (fun t => t.id == id) with
  | none => (false, st)
  | some _ =>
    let st1 : Store := recordHistory now st id "Exclusão" none none none "Manual"
    (true, { st1 with tasks := removeFirst (fun t => t.id == id) st1.tasks })

/-- taskUpdateStatus: forbids Vencida to Pendente, otherwise sets the
status, touches dataAtualizacao and records one Manual status change. -/
def taskUpdateStatus (now : Int) (st : Store) (id : Nat) (status : TaskStatus) :
    Except TaskError (Option TaskEntity) × Store :=
  match st.tasks.find? (fun t => t.id == id) with
  | none => (.ok none, st)
  | some oldTask =>
    if oldTask.status == .Vencida && status == .Pendente then
      (.error .alteracaoNaoPermitida, st)
    else
      let updated : TaskEntity := { oldTask with status := status, dataAtualizacao := now }
      let st1 : Store :=
        { st with tasks := updateFirst (fun t => t.id == id) (fun _ => updated) st.tasks }
      (.ok (some updated),
       recordHistory now st1 id "Alteração de Status" (some "status")
         (some (statusStr oldTask.status)) (some (statusStr status)) "Manual")

/-- The sweep condition: the task is Pendente, has a due-date, and its
effective due-moment is strictly before now. -/
def sweepFlips (now : Int) (t : TaskEntity) : Bool :=
  t.status == .Pendente &&
    (match t.dataVencimento with
     | some dv => decide (effectiveDueMs dv t.horaVencimento < now)
     | none => false)

/-- The status-change entry written by the automatic flips and by
taskUpdateStatus (shape used in theorem statements). -/
def statusChangeEntry (hid tid : Nat) (now : Int) (oldS newS origem : String) :
    HistoryEntry :=
  { id := hid, idTarefa := tid, dataAlteracao := now,
    tipoAlteracao := "Alteração de Status", campoAlterado := some "status",
    valorAnterior := some oldS, valorNovo := some newS, origemAlteracao := origem }

/-- The Exclusão entry written by taskDelete (shape used in theorems). -/
def exclusaoEntry (hid tid : Nat) (now : Int) : HistoryEntry :=
  { id := hid, idTarefa := tid, dataAlteracao := now, tipoAlteracao := "Exclusão",
    campoAlterado := none, valorAnterior := none, valorNovo := none,
    origemAlteracao := "Manual" }

/-- The loop body of taskCheckOverdue over the tasks array, threading the
fresh-id supply; returns the rewritten tasks, the recorded entries and the
next fresh id. -/
def checkOverdueAux (now : Int) (nid : Nat) :
    List TaskEntity → List TaskEntity × List HistoryEntry × Nat
  | [] => ([], [], nid)
  | t :: ts =>
    if sweepFlips now t then
      let r := checkOverdueAux now (nid + 1) ts
      ({ t with status := .Vencida, dataAtualizacao := now } :: r.1,
       statusChangeEntry nid t.id now "Pendente" "Vencida" "Automática" :: r.2.1,
       r.2.2)
    else
      let r := checkOverdueAux now nid ts
      (t :: r.1, r.2.1, r.2.2)

/-- taskCheckOverdue: flips every Pendente task whose effective due-moment
is strictly before now to Vencida, recording each flip. -/
def taskCheckOverdue (now : Int) (st : Store) : Store :=
  let r := checkOverdueAux now st.nextId st.tasks
  { tasks := r.1, history := st.history ++ r.2.1, nextId := r.2.2 }

/-- needle begins at the head of hay. -/
def beginsWith : List Char → List Char → Bool
  | [], _ => true
  | _ :: _, [] => false
  | a :: as, b :: bs => a == b && beginsWith as bs

/-- JavaScript String.prototype.includes over character lists. -/
def containsChars (hay needle : List Char) : Bool :=
  match hay with
  | [] => needle.isEmpty
  | _ :: tl => beginsWith needle hay || containsChars tl needle

/-- JavaScript hay.includes(needle). -/
def strIncludes (hay needle : String) : Bool :=
  containsChars hay.toList needle.toList

/-- The free-text search predicate: case-insensitive substring match on
the title, or on the description when one is present. -/
def searchMatch (searchLower : String) (t : TaskEntity) : Bool :=
  strIncludes t.titulo.toLower searchLower ||
    (match t.descricao with
     | some d => strIncludes d.toLower searchLower
     | none => false)

/-- The period-filter stage of taskList (the body of the switch on
filters.filterPeriod); an unrecognised period leaves the list unchanged. -/
def applyPeriodFilter (period : String) (now : Int) (l : List TaskEntity) :
    List TaskEntity :=
  if period == "Hoje" then
    l.filter (fun t =>
      match t.dataVencimento with
      | some dv => dateAtMidnightMs dv == todayMidnightMs now
      | none => false)
  else if period == "Esta semana" then
    l.filter (fun t =>
      match t.dataVencimento with
      | some dv =>
        decide (todayMidnightMs now ≤ dateAtMidnightMs dv) &&
          decide (dateAtMidnightMs dv ≤ todayMidnightMs now + 7 * msPerDay)
      | none => false)
  else if period == "Este mês" then
    l.filter (fun t =>
      match t.dataVencimento with
      | some dv =>
        ((dv.month : Int) == (civilFromDays (Int.fdiv now msPerDay)).2.1) &&
          ((dv.year : Int) == (civilFromDays (Int.fdiv now msPerDay)).1)
      | none => false)
  else if period == "Próximas ao vencimento" then
    l.filter (fun t =>
      match t.dataVencimento with
      | some dv =>
        decide (now ≤ proximasDueMs dv t.horaVencimento) &&
          decide (proximasDueMs dv t.horaVencimento ≤ now + 48 * msPerHour) &&
          (t.status == .Pendente)
      | none => false)
  else if period == "Vencidas" then
    l.filter (fun t => t.status == .Vencida)
  else if period == "Sem data" then
    l.filter (fun t => t.dataVencimento == none)
  else l

/-- importanceOrder = { Alta: 1, Média: 2, Baixa: 3 }. -/
def importanceOrder : TaskImportance → Int
  | .Alta => 1
  | .Media => 2
  | .Baixa => 3

/-- The undirected comparison of the sort stage (the switch on
filters.orderBy); an unrecognised key compares everything equal. -/
def taskComparison (orderBy : String) (a b : TaskEntity) : Int :=
  if orderBy == "Data de vencimento" then
    match a.dataVencimento, b.dataVencimento with
    | none, none => 0
    | none, some _ => 1
    | some _, none => -1
    | some da, some db => dateAtMidnightMs da - dateAtMidnightMs db
  else if orderBy == "Importância" then
    importanceOrder a.importancia - importanceOrder b.importancia
  else if orderBy == "Data de criação" then
    a.dataCriacao - b.dataCriacao
  else 0

/-- The directed comparator handed to sort: Crescente keeps the sign,
anything else negates it. -/
def taskCmp (filters : TaskListFilters) (a b : TaskEntity) : Int :=
  if filters.orderDirection == "Crescente" then taskComparison filters.orderBy a b
  else -taskComparison filters.orderBy a b

/-- The status-filter stage of taskList. -/
def statusFilterStage (fs : String) (l : List TaskEntity) : List TaskEntity :=
  if fs == "Todas" then l else l.filter (fun t => statusStr t.status == fs)

/-- The importance-filter stage of taskList. -/
def importanceFilterStage (fi : String) (l : List TaskEntity) : List TaskEntity :=
  if fi == "Todas" then l else l.filter (fun t => importanceStr t.importancia == fi)

/-- The period-filter stage of taskList (Todas is a pass-through). -/
def periodFilterStage (fp : String) (now : Int) (l : List TaskEntity) : List TaskEntity :=
  if fp == "Todas" then l else applyPeriodFilter fp now l

/-- The free-text search stage of taskList (an absent or empty term is a
pass-through, because an empty string is falsy). -/
def searchFilterStage (term : Option String) (l : List TaskEntity) : List TaskEntity :=
  match term with
  | some s => if s.isEmpty then l else l.filter (searchMatch s.toLower)
  | none => l

/-- taskList: the status, importance, period and search filters applied in
order to a copy of the tasks array, then the stable comparator sort. -/
def taskList (filters : TaskListFilters) (now : Int) (st : Store) : List TaskEntity :=
  (searchFilterStage filters.searchTerm
    (periodFilterStage filters.filterPeriod now
      (importanceFilterStage filters.filterImportance
        (statusFilterStage filters.filterStatus st.tasks)))).mergeSort
    (fun a b => decide (taskCmp filters a b ≤ 0))

/-- taskGetHistory: the entries of one task, optionally narrowed by kind
and origin, sorted by change timestamp descending. -/
def taskGetHistory (st : Store) (idTarefa : Nat) (filterTipo filterOrigem : Option String) :
    List HistoryEntry :=
  let e1 := st.history.filter (fun h => h.idTarefa == idTarefa)
  let e2 :=
    match filterTipo with
    | some s => if s.isEmpty || s == "Todas" then e1
        else e1.filter (fun h => h.tipoAlteracao == s)
    | none => e1
  let e3 :=
    match filterOrigem with
    | some s => if s.isEmpty || s == "Todas" then e2
        else e2.filter (fun h => h.origemAlteracao == s)
    | none => e2
  e3.mergeSort (fun a b => decide (b.dataAlteracao - a.dataAlteracao ≤ 0))

/-- The status-change endpoint (updateStatusHandler): the request schema
admits only the strings Pendente and Concluída before the service runs;
none models the 400 schema rejection. -/
def updateStatusEndpoint (now : Int) (st : Store) (id : Nat) (status : String) :
    Option (Except TaskError (Option TaskEntity) × Store) :=
  if status == "Pendente" then some (taskUpdateStatus now st id .Pendente)
  else if status == "Concluída" then some (taskUpdateStatus now st id .Concluida)
  else none

/-- The shape of an Edição history entry for one changed-field triple
(field name, stringified old value, stringified new value). -/
def editEntryShape (now : Int) (tid : Nat) (e : HistoryEntry)
    (c : String × String × String) : Prop :=
  e.tipoAlteracao = "Edição" ∧ e.campoAlterado = some c.1 ∧
    e.valorAnterior = some c.2.1 ∧ e.valorNovo = some c.2.2 ∧
    e.origemAlteracao = "Manual" ∧ e.idTarefa = tid ∧ e.dataAlteracao = now

/-! ## Helper lemmas -/

theorem recordEdits_spec (now : Int) (tid : Nat) :
    ∀ (cs : List (String × String × String)) (st : Store),
      (recordEdits now tid cs st).tasks = st.tasks ∧
      ∃ es, (recordEdits now tid cs st).history = st.history ++ es ∧
        List.Forall₂ (editEntryShape now tid) es cs ∧
        ∀ e ∈ es, e.tipoAlteracao = "Edição" ∧ e.origemAlteracao = "Manual"
  | [], st => by simp [recordEdits]
  | c :: cs, st => by
    obtain ⟨htasks, es, hh, hf, hall⟩ :=
      recordEdits_spec now tid cs
        (recordHistory now st tid "Edição" (some c.1) (some c.2.1) (some c.2.2) "Manual")
    refine ⟨by simpa [recordHistory] using htasks,
      { id := st.nextId, idTarefa := tid, dataAlteracao := now, tipoAlteracao := "Edição",
        campoAlterado := some c.1, valorAnterior := some c.2.1, valorNovo := some c.2.2,
        origemAlteracao := "Manual" } :: es, ?_, ?_, ?_⟩
    · simpa [recordEdits, recordHistory] using hh
    · exact List.Forall₂.cons (by simp [editEntryShape]) hf
    · intro e he
      rcases List.mem_cons.mp he with rfl | he
      · exact ⟨rfl, rfl⟩
      · exact hall e he

theorem updateFirst_length (p : TaskEntity → Bool) (f : TaskEntity → TaskEntity) :
    ∀ l : List TaskEntity, (updateFirst p f l).length = l.length
  | [] => rfl
  | t :: ts => by
    by_cases h : p t <;> simp [updateFirst, h, updateFirst_length p f ts]

theorem updateFirst_getElem? (p : TaskEntity → Bool) (f : TaskEntity → TaskEntity) :
    ∀ (l : List TaskEntity) (i : Nat),
      (updateFirst p f l)[i]? = l[i]? ∨ (updateFirst p f l)[i]? = (l[i]?).map f
  | [], i => by simp [updateFirst]
  | t :: ts, i => by
    by_cases h : p t
    · cases i with
      | zero => right; simp [updateFirst, h]
      | succ n => left; simp [updateFirst, h]
    · cases i with
      | zero => left; simp [updateFirst, h]
      | succ n => simpa [updateFirst, h] using updateFirst_getElem? p f ts n

theorem removeFirst_id_ne (tid : Nat) :
    ∀ l : List TaskEntity, (l.map TaskEntity.id).Nodup →
      ∀ t ∈ removeFirst (fun x => x.id == tid) l, t.id ≠ tid
  | [], _, t, ht => by simp [removeFirst] at ht
  | a :: l, hnodup, t, ht => by
    have hn : a.id ∉ l.map TaskEntity.id ∧ (l.map TaskEntity.id).Nodup := by
      simpa [List.nodup_cons] using hnodup
    by_cases h : a.id = tid
    · simp only [removeFirst, beq_iff_eq, if_pos h] at ht
      intro heq
      apply hn.1
      rw [h, ← heq]
      exact List.mem_map_of_mem TaskEntity.id ht
    · simp only [removeFirst, beq_iff_eq, if_neg h] at ht
      rcases List.mem_cons.mp ht with rfl | ht
      · exact h
      · exact removeFirst_id_ne tid l hn.2 t ht

theorem removeFirst_subset (p : TaskEntity → Bool) :
    ∀ l : List TaskEntity, ∀ t ∈ removeFirst p l, t ∈ l
  | [], t, ht => by simp [removeFirst] at ht
  | a :: l, t, ht => by
    by_cases h : p a
    · simp only [removeFirst, if_pos h] at ht
      exact List.mem_cons_of_mem a ht
    · simp only [removeFirst, if_neg h] at ht
      rcases List.mem_cons.mp ht with rfl | ht
      · exact List.mem_cons_self t l
      · exact List.mem_cons_of_mem a (removeFirst_subset p l t ht)

theorem checkOverdueAux_spec (now : Int) :
    ∀ (l : List TaskEntity) (nid : Nat),
      (checkOverdueAux now nid l).1 =
        l.map (fun t =>
          if sweepFlips now t then
            { t with status := TaskStatus.Vencida, dataAtualizacao := now }
          else t) ∧
      (checkOverdueAux now nid l).2.1.length = (l.filter (sweepFlips now)).length ∧
      ∀ e ∈ (checkOverdueAux now nid l).2.1,
        e.tipoAlteracao = "Alteração de Status" ∧ e.origemAlteracao = "Automática" ∧
          e.valorAnterior = some "Pendente" ∧ e.valorNovo = some "Vencida" ∧
          e.campoAlterado = some "status" ∧ e.dataAlteracao = now
  | [], nid => by simp [checkOverdueAux]
  | t :: l, nid => by
    by_cases hf : sweepFlips now t
    · obtain ⟨h1, h2, h3⟩ := checkOverdueAux_spec now l (nid + 1)
      refine ⟨by simp [checkOverdueAux, hf, h1], by simp [checkOverdueAux, hf, h2], ?_⟩
      intro e he
      simp only [checkOverdueAux, if_pos hf] at he
      rcases List.mem_cons.mp he with rfl | he
      · simp [statusChangeEntry]
      · exact h3 e he
    · obtain ⟨h1, h2, h3⟩ := checkOverdueAux_spec now l nid
      refine ⟨by simp [checkOverdueAux, hf, h1], by simp [checkOverdueAux, hf, h2], ?_⟩
      intro e he
      simp only [checkOverdueAux, if_neg hf] at he
      exact h3 e he

/-- Claim C2: after taskCheckOverdue runs at moment `now`, a task has been
flipped from Pendente to Vencida exactly when it was Pendente, has a
due-date, and its effective due-moment (due-date at the due-time, or
23:59:59 when no due-time is set) is strictly before `now`; each flip also
sets the last-update timestamp to `now`; Concluída tasks are never
touched; and one Alteração-de-Status / Automática history entry is
appended per flipped task. -/
theorem overdue_sweep_characterization (now : Int) (st : Store) :
    (taskCheckOverdue now st).tasks =
      st.tasks.map (fun t =>
        if sweepFlips now t then
          { t with status := TaskStatus.Vencida, dataAtualizacao := now }
        else t) ∧
    (∀ t : TaskEntity, sweepFlips now t = true ↔
      (t.status = TaskStatus.Pendente ∧
        ∃ dv, t.dataVencimento = some dv ∧ effectiveDueMs dv t.horaVencimento < now)) ∧
    (∀ t : TaskEntity, t.status = TaskStatus.Concluida → sweepFlips now t = false) ∧
    ∃ es, (taskCheckOverdue now st).history = st.history ++ es ∧
      es.length = (st.tasks.filter (sweepFlips now)).length ∧
      ∀ e ∈ es,
        e.tipoAlteracao = "Alteração de Status" ∧ e.origemAlteracao = "Automática" ∧
          e.valorAnterior = some "Pendente" ∧ e.valorNovo = some "Vencida" ∧
          e.campoAlterado = some "status" ∧ e.dataAlteracao = now := by
  obtain ⟨h1, h2, h3⟩ := checkOverdueAux_spec now st.tasks st.nextId
  refine ⟨h1, ?_, ?_, (checkOverdueAux now st.nextId st.tasks).2.1, rfl, h2, h3⟩
  · intro t
    cases hd : t.dataVencimento with
    | none => simp [sweepFlips, hd]
    | some dv => cases hs : t.status <;> simp [sweepFlips, hd, hs]
  · intro t hs
    simp [sweepFlips, hs]

/-- Witness for C2 at a concrete moment and store: one Pendente task due
the previous day is flipped, a Concluída one is untouched. -/
theorem overdue_sweep_characterization_witness :
    (taskCheckOverdue 1791676800000
      { tasks := [{ id := 0, titulo := "a", descricao := none,
                    dataVencimento := some { day := 10, month := 10, year := 2026 },
                    horaVencimento := none, importancia := TaskImportance.Alta,
                    status := TaskStatus.Pendente, dataCriacao := 0, dataAtualizacao := 0 },
                  { id := 1, titulo := "b", descricao := none,
                    dataVencimento := some { day := 10, month := 10, year := 2026 },
                    horaVencimento := none, importancia := TaskImportance.Alta,
                    status := TaskStatus.Concluida, dataCriacao := 0, dataAtualizacao := 0 }],
        history := [], nextId := 2 }).tasks =
      [{ id := 0, titulo := "a", descricao := none,
         dataVencimento := some { day := 10, month := 10, year := 2026 },
         horaVencimento := none, importancia := TaskImportance.Alta,
         status := TaskStatus.Vencida, dataCriacao := 0, dataAtualizacao := 1791676800000 },
       { id := 1, titulo := "b", descricao := none,
         dataVencimento := some { day := 10, month := 10, year := 2026 },
         horaVencimento := none, importancia := TaskImportance.Alta,
         status := TaskStatus.Concluida, dataCriacao := 0, dataAtualizacao := 0 }] := by
  rw [(overdue_sweep_characterization 1791676800000 _).1]
  decide

/-- Claim C9: for an identifier absent from the store, taskUpdate returns
the explicit absent result with the store (tasks and history) unchanged,
for every payload, valid or not: the existence check precedes validation. -/
theorem update_miss_returns_none (now : Int) (st : Store) (tid : Nat)
    (data : TaskUpdateRequest) (h : taskGet st tid = none) :
    taskUpdate now st tid data = (.ok none, st) := by
  simp only [taskGet] at h
  simp [taskUpdate, h]

/-- Witness for C9: an empty store and a payload violating the title
validation rule still produce the absent result, not an error. -/
theorem update_miss_returns_none_witness :
    taskGet { tasks := [], history := [], nextId := 0 } 5 = none ∧
      taskUpdate 0 { tasks := [], history := [], nextId := 0 } 5
        { titulo := "", descricao := none, dataVencimento := none,
          horaVencimento := none, importancia := TaskImportance.Alta } =
        (.ok none, { tasks := [], history := [], nextId := 0 }) :=
  ⟨by decide,
   update_miss_returns_none 0 { tasks := [], history := [], nextId := 0 } 5
     { titulo := "", descricao := none, dataVencimento := none,
       horaVencimento := none, importancia := TaskImportance.Alta } (by decide)⟩

/-- Claim C3: on a Vencida task, the explicit status change to Pendente
always fails with alteracaoNaoPermitida and leaves the whole store (tasks
and history) unchanged; a Pendente task set to Concluída and a Concluída
task set to Pendente always succeed and append exactly one
Alteração-de-Status entry with origin Manual carrying the old and new
status strings. -/
theorem status_change_rules (now : Int) (st1 st2 st3 : Store) (id1 id2 id3 : Nat)
    (t1 t2 t3 : TaskEntity)
    (h1 : taskGet st1 id1 = some t1) (hs1 : t1.status = TaskStatus.Vencida)
    (h2 : taskGet st2 id2 = some t2) (hs2 : t2.status = TaskStatus.Pendente)
    (h3 : taskGet st3 id3 = some t3) (hs3 : t3.status = TaskStatus.Concluida) :
    taskUpdateStatus now st1 id1 TaskStatus.Pendente =
      (.error TaskError.alteracaoNaoPermitida, st1) ∧
    ((taskUpdateStatus now st2 id2 TaskStatus.Concluida).1 =
        .ok (some { t2 with status := TaskStatus.Concluida, dataAtualizacao := now }) ∧
      (taskUpdateStatus now st2 id2 TaskStatus.Concluida).2.history =
        st2.history ++ [statusChangeEntry st2.nextId id2 now "Pendente" "Concluída" "Manual"]) ∧
    ((taskUpdateStatus now st3 id3 TaskStatus.Pendente).1 =
        .ok (some { t3 with status := TaskStatus.Pendente, dataAtualizacao := now }) ∧
      (taskUpdateStatus now st3 id3 TaskStatus.Pendente).2.history =
        st3.history ++ [statusChangeEntry st3.nextId id3 now "Concluída" "Pendente" "Manual"]) := by
  simp only [taskGet] at h1 h2 h3
  refine ⟨?_, ⟨?_, ?_⟩, ⟨?_, ?_⟩⟩
  · simp [taskUpdateStatus, h1, hs1]
  · simp [taskUpdateStatus, h2, hs2]
  · simp [taskUpdateStatus, h2, hs2, recordHistory, statusChangeEntry, statusStr]
  · simp [taskUpdateStatus, h3, hs3]
  · simp [taskUpdateStatus, h3, hs3, recordHistory, statusChangeEntry, statusStr]

/-- A minimal one-task sample used by witnesses. -/
def sampleTask (i : Nat) (s : TaskStatus) : TaskEntity :=
  { id := i, titulo := "a", descricao := none, dataVencimento := none,
    horaVencimento := none, importancia := TaskImportance.Alta, status := s,
    dataCriacao := 0, dataAtualizacao := 0 }

/-- A store holding just the sample task. -/
def sampleStore (i : Nat) (s : TaskStatus) : Store :=
  { tasks := [sampleTask i s], history := [], nextId := i + 1 }

/-- Witness for C3 at three concrete one-task stores, one per status. -/
theorem status_change_rules_witness :
    taskGet (sampleStore 1 TaskStatus.Vencida) 1 = some (sampleTask 1 TaskStatus.Vencida) ∧
    taskUpdateStatus 9 (sampleStore 1 TaskStatus.Vencida) 1 TaskStatus.Pendente =
      (.error TaskError.alteracaoNaoPermitida, sampleStore 1 TaskStatus.Vencida) ∧
    (taskUpdateStatus 9 (sampleStore 2 TaskStatus.Pendente) 2 TaskStatus.Concluida).2.history =
      [statusChangeEntry 3 2 9 "Pendente" "Concluída" "Manual"] ∧
    (taskUpdateStatus 9 (sampleStore 3 TaskStatus.Concluida) 3 TaskStatus.Pendente).2.history =
      [statusChangeEntry 4 3 9 "Concluída" "Pendente" "Manual"] := by
  have h := status_change_rules 9 (sampleStore 1 TaskStatus.Vencida)
    (sampleStore 2 TaskStatus.Pendente) (sampleStore 3 TaskStatus.Concluida) 1 2 3
    (sampleTask 1 TaskStatus.Vencida) (sampleTask 2 TaskStatus.Pendente)
    (sampleTask 3 TaskStatus.Concluida)
    (by decide) (by decide) (by decide) (by decide) (by decide) (by decide)
  exact ⟨by decide, h.1, by simpa [sampleStore] using h.2.1.2,
    by simpa [sampleStore] using h.2.2.2⟩

/-- Claim C10: on a successful update of an existing task, the stored
due-date becomes exactly the submitted one, and the Vencida-to-Pendente
reset fires exactly when the stored status was Vencida, the payload
carries a due-date, and that due-date is today or later — no requirement
that it differ from the previous due-date; when the payload carries no
due-date a Vencida task stays Vencida, so Vencida-with-no-due-date is a
reachable state. -/
theorem update_reset_boundary (now : Int) (st : Store) (tid : Nat)
    (data : TaskUpdateRequest) (oldT t' : TaskEntity) (st' : Store)
    (hfind : taskGet st tid = some oldT)
    (hupd : taskUpdate now st tid data = (.ok (some t'), st')) :
    t'.dataVencimento = data.dataVencimento ∧
    (oldT.status = TaskStatus.Vencida →
      t'.status = (match data.dataVencimento with
        | some dv =>
          if todayMidnightMs now ≤ dateAtMidnightMs dv then TaskStatus.Pendente
          else TaskStatus.Vencida
        | none => TaskStatus.Vencida)) ∧
    (oldT.status ≠ TaskStatus.Vencida → t'.status = oldT.status) := by
  simp only [taskGet] at hfind
  cases hval : validateFields data.titulo data.descricao with
  | some e => simp [taskUpdate, hfind, hval] at hupd
  | none =>
    simp only [taskUpdate, hfind, hval, Prod.mk.injEq, Except.ok.injEq,
      Option.some.injEq] at hupd
    obtain ⟨ht, hst⟩ := hupd
    refine ⟨?_, ?_, ?_⟩
    · cases hr : resetCond now oldT.status data.dataVencimento <;>
        simp [← ht, hr]
    · intro hv
      cases hd : data.dataVencimento with
      | none => simp [← ht, resetCond, hd, hv]
      | some dv =>
        by_cases hle : todayMidnightMs now ≤ dateAtMidnightMs dv
        · simp [← ht, resetCond, hd, hv, hle]
        · simp [← ht, resetCond, hd, hv, hle]
    · intro hv
      have hr : resetCond now oldT.status data.dataVencimento = false := by
        cases hs : oldT.status <;> simp_all [resetCond]
      simp [← ht, hr]

/-- The payload of the C10 witness: same fields as the stored Vencida
task, with the due-date left out. -/
def c10req : TaskUpdateRequest :=
  { titulo := "a", descricao := none, dataVencimento := none,
    horaVencimento := none, importancia := TaskImportance.Alta }

/-- The task produced by the C10 witness update. -/
def c10res : TaskEntity :=
  { id := 1, titulo := "a", descricao := none, dataVencimento := none,
    horaVencimento := none, importancia := TaskImportance.Alta,
    status := TaskStatus.Vencida, dataCriacao := 0, dataAtualizacao := 9 }

/-- The store produced by the C10 witness update. -/
def c10store : Store :=
  { tasks := [c10res], history := [], nextId := 2 }

/-- Witness for C10: a Vencida task updated with a payload carrying no
due-date stays Vencida and now has no due-date. -/
theorem update_reset_boundary_witness :
    taskGet (sampleStore 1 TaskStatus.Vencida) 1 = some (sampleTask 1 TaskStatus.Vencida) ∧
    taskUpdate 9 (sampleStore 1 TaskStatus.Vencida) 1 c10req = (.ok (some c10res), c10store) ∧
    (c10res.dataVencimento = c10req.dataVencimento ∧
      (TaskStatus.Vencida = TaskStatus.Vencida →
        c10res.status = (match c10req.dataVencimento with
          | some dv =>
            if todayMidnightMs 9 ≤ dateAtMidnightMs dv then TaskStatus.Pendente
            else TaskStatus.Vencida
          | none => TaskStatus.Vencida)) ∧
      (TaskStatus.Vencida ≠ TaskStatus.Vencida → c10res.status = TaskStatus.Vencida)) := by
  have h := update_reset_boundary 9 (sampleStore 1 TaskStatus.Vencida) 1 c10req
    (sampleTask 1 TaskStatus.Vencida) c10res c10store (by rfl) (by rfl)
  exact ⟨by rfl, by rfl, h⟩

theorem mem_if_nil {α : Type} (P : Prop) [Decidable P] (x a : α) :
    (a ∈ if P then ([] : List α) else [x]) ↔ ¬P ∧ a = x := by
  split_ifs with h <;> simp [h]

theorem if_nil_eq_nil {α : Type} (P : Prop) [Decidable P] (x : α) :
    ((if P then ([] : List α) else [x]) = []) ↔ P := by
  split_ifs with h <;> simp [h]

theorem changedFields_titulo (oldT : TaskEntity) (data : TaskUpdateRequest)
    (o n : String) :
    ("titulo", o, n) ∈ changedFields oldT data ↔
      oldT.titulo ≠ data.titulo ∧ o = oldT.titulo ∧ n = data.titulo := by
  simp [changedFields, mem_if_nil, Prod.mk.injEq]

theorem changedFields_descricao (oldT : TaskEntity) (data : TaskUpdateRequest)
    (o n : String) :
    ("descricao", o, n) ∈ changedFields oldT data ↔
      oldT.descricao ≠ data.descricao ∧
        o = jsString (fun s => s) oldT.descricao ∧
        n = jsString (fun s => s) data.descricao := by
  simp [changedFields, mem_if_nil, Prod.mk.injEq]

theorem changedFields_dataVencimento (oldT : TaskEntity) (data : TaskUpdateRequest)
    (o n : String) :
    ("dataVencimento", o, n) ∈ changedFields oldT data ↔
      oldT.dataVencimento ≠ data.dataVencimento ∧
        o = jsString dateStr oldT.dataVencimento ∧
        n = jsString dateStr data.dataVencimento := by
  simp [changedFields, mem_if_nil, Prod.mk.injEq]

theorem changedFields_horaVencimento (oldT : TaskEntity) (data : TaskUpdateRequest)
    (o n : String) :
    ("horaVencimento", o, n) ∈ changedFields oldT data ↔
      oldT.horaVencimento ≠ data.horaVencimento ∧
        o = jsString timeStr oldT.horaVencimento ∧
        n = jsString timeStr data.horaVencimento := by
  simp [changedFields, mem_if_nil, Prod.mk.injEq]

theorem changedFields_importancia (oldT : TaskEntity) (data : TaskUpdateRequest)
    (o n : String) :
    ("importancia", o, n) ∈ changedFields oldT data ↔
      oldT.importancia ≠ data.importancia ∧
        o = importanceStr oldT.importancia ∧ n = importanceStr data.importancia := by
  simp [changedFields, mem_if_nil, Prod.mk.injEq]

theorem changedFields_eq_nil (oldT : TaskEntity) (data : TaskUpdateRequest) :
    changedFields oldT data = [] ↔
      (oldT.titulo = data.titulo ∧ oldT.descricao = data.descricao ∧
        oldT.dataVencimento = data.dataVencimento ∧
        oldT.horaVencimento = data.horaVencimento ∧
        oldT.importancia = data.importancia) := by
  simp [changedFields, if_nil_eq_nil]

/-- Claim C1: a successful update of an existing task appends, after the
possible automatic status-reset entries, a block of Edição entries in 1-1
order-preserving correspondence with the changed-field triples; the
triples contain exactly one element per tracked field whose old and new
values differ (none for an unchanged field), carrying the stringified old
and new values, and the block is empty exactly when all five tracked
fields are unchanged (idempotence). Every Edição entry has origin Manual. -/
theorem update_edit_entries (now : Int) (st : Store) (tid : Nat)
    (data : TaskUpdateRequest) (oldT t' : TaskEntity) (st' : Store)
    (hfind : taskGet st tid = some oldT)
    (hupd : taskUpdate now st tid data = (.ok (some t'), st')) :
    (∃ pre es, st'.history = st.history ++ pre ++ es ∧
      (∀ e ∈ pre, e.tipoAlteracao = "Alteração de Status" ∧
        e.origemAlteracao = "Automática") ∧
      List.Forall₂ (editEntryShape now tid) es (changedFields oldT data)) ∧
    (∀ o n, ("titulo", o, n) ∈ changedFields oldT data ↔
      oldT.titulo ≠ data.titulo ∧ o = oldT.titulo ∧ n = data.titulo) ∧
    (∀ o n, ("descricao", o, n) ∈ changedFields oldT data ↔
      oldT.descricao ≠ data.descricao ∧
        o = jsString (fun s => s) oldT.descricao ∧
        n = jsString (fun s => s) data.descricao) ∧
    (∀ o n, ("dataVencimento", o, n) ∈ changedFields oldT data ↔
      oldT.dataVencimento ≠ data.dataVencimento ∧
        o = jsString dateStr oldT.dataVencimento ∧
        n = jsString dateStr data.dataVencimento) ∧
    (∀ o n, ("horaVencimento", o, n) ∈ changedFields oldT data ↔
      oldT.horaVencimento ≠ data.horaVencimento ∧
        o = jsString timeStr oldT.horaVencimento ∧
        n = jsString timeStr data.horaVencimento) ∧
    (∀ o n, ("importancia", o, n) ∈ changedFields oldT data ↔
      oldT.importancia ≠ data.importancia ∧
        o = importanceStr oldT.importancia ∧ n = importanceStr data.importancia) ∧
    (∀ c ∈ changedFields oldT data,
      c.1 = "titulo" ∨ c.1 = "descricao" ∨ c.1 = "dataVencimento" ∨
        c.1 = "horaVencimento" ∨ c.1 = "importancia") ∧
    (changedFields oldT data = [] ↔
      (oldT.titulo = data.titulo ∧ oldT.descricao = data.descricao ∧
        oldT.dataVencimento = data.dataVencimento ∧
        oldT.horaVencimento = data.horaVencimento ∧
        oldT.importancia = data.importancia)) := by
  simp only [taskGet] at hfind
  refine ⟨?_, changedFields_titulo oldT data, changedFields_descricao oldT data,
    changedFields_dataVencimento oldT data, changedFields_horaVencimento oldT data,
    changedFields_importancia oldT data, ?_, changedFields_eq_nil oldT data⟩
  · cases hval : validateFields data.titulo data.descricao with
    | some e => simp [taskUpdate, hfind, hval] at hupd
    | none =>
      simp only [taskUpdate, hfind, hval, Prod.mk.injEq, Except.ok.injEq,
        Option.some.injEq] at hupd
      obtain ⟨ht, hsteq⟩ := hupd
      cases hr : resetCond now oldT.status data.dataVencimento with
      | false =>
        obtain ⟨htasks, es, hh, hf, hall⟩ :=
          recordEdits_spec now tid (changedFields oldT data) st
        refine ⟨[], es, ?_, by simp, hf⟩
        rw [← hsteq]
        simpa [hr] using hh
      | true =>
        obtain ⟨htasks, es, hh, hf, hall⟩ :=
          recordEdits_spec now tid (changedFields oldT data)
            (recordHistory now st tid "Alteração de Status" (some "status")
              (some (statusStr .Vencida)) (some (statusStr .Pendente)) "Automática")
        refine ⟨[statusChangeEntry st.nextId tid now "Vencida" "Pendente" "Automática"],
          es, ?_, ?_, hf⟩
        · rw [← hsteq]
          simp only [hr, if_true]
          simpa [recordHistory, statusChangeEntry, statusStr] using hh
        · intro e he
          rcases List.mem_singleton.mp he with rfl
          exact ⟨rfl, rfl⟩
  · intro c hc
    revert hc
    simp only [changedFields, List.mem_append, mem_if_nil]
    rintro ((((⟨-, rfl⟩ | ⟨-, rfl⟩) | ⟨-, rfl⟩) | ⟨-, rfl⟩) | ⟨-, rfl⟩) <;> simp

/-- Witness for C1: updating a task with its own current values produces
an empty changed-field list and appends nothing to the history. -/
theorem update_edit_entries_witness :
    taskGet (sampleStore 1 TaskStatus.Pendente) 1 = some (sampleTask 1 TaskStatus.Pendente) ∧
    taskUpdate 9 (sampleStore 1 TaskStatus.Pendente) 1 c10req =
      (.ok (some { id := 1, titulo := "a", descricao := none, dataVencimento := none,
                   horaVencimento := none, importancia := TaskImportance.Alta,
                   status := TaskStatus.Pendente, dataCriacao := 0, dataAtualizacao := 9 }),
       { tasks := [{ id := 1, titulo := "a", descricao := none, dataVencimento := none,
                     horaVencimento := none, importancia := TaskImportance.Alta,
                     status := TaskStatus.Pendente, dataCriacao := 0, dataAtualizacao := 9 }],
         history := [], nextId := 2 }) ∧
    changedFields (sampleTask 1 TaskStatus.Pendente) c10req = [] ∧
    (∃ pre es,
      ({ tasks := [{ id := 1, titulo := "a", descricao := none, dataVencimento := none,
                     horaVencimento := none, importancia := TaskImportance.Alta,
                     status := TaskStatus.Pendente, dataCriacao := 0, dataAtualizacao := 9 }],
         history := [], nextId := 2 } : Store).history =
          (sampleStore 1 TaskStatus.Pendente).history ++ pre ++ es ∧
        (∀ e ∈ pre, e.tipoAlteracao = "Alteração de Status" ∧
          e.origemAlteracao = "Automática") ∧
        List.Forall₂ (editEntryShape 9 1) es
          (changedFields (sampleTask 1 TaskStatus.Pendente) c10req)) := by
  have h := update_edit_entries 9 (sampleStore 1 TaskStatus.Pendente) 1 c10req
    (sampleTask 1 TaskStatus.Pendente)
    { id := 1, titulo := "a", descricao := none, dataVencimento := none,
      horaVencimento := none, importancia := TaskImportance.Alta,
      status := TaskStatus.Pendente, dataCriacao := 0, dataAtualizacao := 9 }
    { tasks := [{ id := 1, titulo := "a", descricao := none, dataVencimento := none,
                  horaVencimento := none, importancia := TaskImportance.Alta,
                  status := TaskStatus.Pendente, dataCriacao := 0, dataAtualizacao := 9 }],
      history := [], nextId := 2 }
    (by rfl) (by rfl)
  exact ⟨by rfl, by rfl, by decide, h.1⟩

/-- Claim C4: an update of a Vencida task whose payload carries a
due-date that is today or in the future resets the status to Pendente
within that same update and appends one Alteração-de-Status entry with
origin Automática (old value Vencida, new value Pendente) placed before,
and distinct from, the Edição entries of the changed fields. -/
theorem update_resets_overdue (now : Int) (st : Store) (tid : Nat)
    (data : TaskUpdateRequest) (oldT t' : TaskEntity) (st' : Store) (dv : DateDMY)
    (hfind : taskGet st tid = some oldT)
    (hst : oldT.status = TaskStatus.Vencida)
    (hdv : data.dataVencimento = some dv)
    (hfut : todayMidnightMs now ≤ dateAtMidnightMs dv)
    (hupd : taskUpdate now st tid data = (.ok (some t'), st')) :
    t'.status = TaskStatus.Pendente ∧
    ∃ es, st'.history =
        st.history ++
          statusChangeEntry st.nextId tid now "Vencida" "Pendente" "Automática" :: es ∧
      ∀ e ∈ es, e.tipoAlteracao = "Edição" ∧ e.origemAlteracao = "Manual" := by
  simp only [taskGet] at hfind
  have hr : resetCond now oldT.status data.dataVencimento = true := by
    simp [resetCond, hst, hdv, hfut]
  cases hval : validateFields data.titulo data.descricao with
  | some e => simp [taskUpdate, hfind, hval] at hupd
  | none =>
    simp only [taskUpdate, hfind, hval, Prod.mk.injEq, Except.ok.injEq,
      Option.some.injEq] at hupd
    obtain ⟨ht, hsteq⟩ := hupd
    constructor
    · rw [← ht]
      simp [hr]
    · obtain ⟨htasks, es, hh, hf, hall⟩ :=
        recordEdits_spec now tid (changedFields oldT data)
          (recordHistory now st tid "Alteração de Status" (some "status")
            (some (statusStr .Vencida)) (some (statusStr .Pendente)) "Automática")
      refine ⟨es, ?_, hall⟩
      rw [← hsteq]
      simp only [hr, if_true]
      simpa [recordHistory, statusChangeEntry, statusStr] using hh

/-- The initial Vencida task of the C4 witness. -/
def c4task : TaskEntity :=
  { id := 1, titulo := "a", descricao := none,
    dataVencimento := some { day := 1, month := 1, year := 2020 },
    horaVencimento := none, importancia := TaskImportance.Alta,
    status := TaskStatus.Vencida, dataCriacao := 0, dataAtualizacao := 0 }

/-- The initial store of the C4 witness. -/
def c4st : Store := { tasks := [c4task], history := [], nextId := 2 }

/-- The C4 witness payload: due-date moved to the following day. -/
def c4req : TaskUpdateRequest :=
  { titulo := "a", descricao := none,
    dataVencimento := some { day := 12, month := 10, year := 2026 },
    horaVencimento := none, importancia := TaskImportance.Alta }

/-- The task returned by the C4 witness update. -/
def c4res : TaskEntity :=
  { id := 1, titulo := "a", descricao := none,
    dataVencimento := some { day := 12, month := 10, year := 2026 },
    horaVencimento := none, importancia := TaskImportance.Alta,
    status := TaskStatus.Pendente, dataCriacao := 0, dataAtualizacao := 1791720000000 }

/-- The store produced by the C4 witness update. -/
def c4out : Store :=
  { tasks := [c4res],
    history := [statusChangeEntry 2 1 1791720000000 "Vencida" "Pendente" "Automática",
      { id := 3, idTarefa := 1, dataAlteracao := 1791720000000,
        tipoAlteracao := "Edição", campoAlterado := some "dataVencimento",
        valorAnterior := some "01/01/2020", valorNovo := some "12/10/2026",
        origemAlteracao := "Manual" }],
    nextId := 4 }

/-- Witness for C4: a Vencida task with a past due-date, updated at noon
of 11/10/2026 to the due-date 12/10/2026 (the next day), is reset to
Pendente and the Automática status entry precedes the Edição entries. -/
theorem update_resets_overdue_witness :
    taskGet c4st 1 = some c4task ∧
    c4task.status = TaskStatus.Vencida ∧
    c4req.dataVencimento = some { day := 12, month := 10, year := 2026 } ∧
    todayMidnightMs 1791720000000 ≤
      dateAtMidnightMs { day := 12, month := 10, year := 2026 } ∧
    taskUpdate 1791720000000 c4st 1 c4req = (.ok (some c4res), c4out) ∧
    (c4res.status = TaskStatus.Pendente ∧
      ∃ es, c4out.history =
          c4st.history ++
            statusChangeEntry c4st.nextId 1 1791720000000 "Vencida" "Pendente" "Automática" :: es ∧
        ∀ e ∈ es, e.tipoAlteracao = "Edição" ∧ e.origemAlteracao = "Manual") :=
  ⟨by rfl, by rfl, by rfl, by decide, by rfl,
   update_resets_overdue 1791720000000 c4st 1 c4req c4task c4res c4out
     { day := 12, month := 10, year := 2026 }
     (by rfl) (by rfl) (by rfl) (by decide) (by rfl)⟩

/-- Claim C8: the explicit status-change operation (the endpoint: request
schema plus taskUpdateStatus) never makes any task Vencida; in particular
a Pendente task never ends up Vencida through it — the Pendente-to-Vencida
transition exists only in the overdue sweep. -/
theorem endpoint_never_sets_overdue (now : Int) (st : Store) (tid : Nat) (s : String)
    (res : Except TaskError (Option TaskEntity)) (st' : Store)
    (h : updateStatusEndpoint now st tid s = some (res, st')) :
    st'.tasks.length = st.tasks.length ∧
    (∀ (i : Nat) (t0 t1 : TaskEntity), st.tasks[i]? = some t0 → st'.tasks[i]? = some t1 →
      t0.status = TaskStatus.Pendente → t1.status ≠ TaskStatus.Vencida) ∧
    (∀ t, res = .ok (some t) → t.status ≠ TaskStatus.Vencida) := by
  have main : ∀ snew : TaskStatus, snew ≠ TaskStatus.Vencida →
      taskUpdateStatus now st tid snew = (res, st') →
      st'.tasks.length = st.tasks.length ∧
      (∀ (i : Nat) (t0 t1 : TaskEntity), st.tasks[i]? = some t0 → st'.tasks[i]? = some t1 →
        t0.status = TaskStatus.Pendente → t1.status ≠ TaskStatus.Vencida) ∧
      (∀ t, res = .ok (some t) → t.status ≠ TaskStatus.Vencida) := by
    intro snew hsnew hup
    cases hfind : st.tasks.find? (fun t => t.id == tid) with
    | none =>
      simp only [taskUpdateStatus, hfind, Prod.mk.injEq] at hup
      obtain ⟨rfl, rfl⟩ := hup
      refine ⟨rfl, ?_, ?_⟩
      · intro i t0 t1 h0 h1 hp
        have h2 : t0 = t1 := Option.some.inj (h0.symm.trans h1)
        rw [← h2, hp]
        simp
      · intro t hres2
        simp at hres2
    | some oldTask =>
      by_cases hguard : (oldTask.status == TaskStatus.Vencida && snew == TaskStatus.Pendente) = true
      · simp only [taskUpdateStatus, hfind, hguard, if_true, Prod.mk.injEq] at hup
        obtain ⟨rfl, rfl⟩ := hup
        refine ⟨rfl, ?_, ?_⟩
        · intro i t0 t1 h0 h1 hp
          have h2 : t0 = t1 := Option.some.inj (h0.symm.trans h1)
          rw [← h2, hp]
          simp
        · intro t hres2
          simp at hres2
      · simp only [taskUpdateStatus, hfind, hguard, if_false, Bool.not_eq_true,
          Prod.mk.injEq] at hup
        obtain ⟨rfl, rfl⟩ := hup
        refine ⟨?_, ?_, ?_⟩
        · simpa [recordHistory] using updateFirst_length _ _ st.tasks
        · intro i t0 t1 h0 h1 hp
          simp only [recordHistory] at h1
          rcases updateFirst_getElem? (fun t => t.id == tid)
              (fun _ => { oldTask with status := snew, dataAtualizacao := now })
              st.tasks i with hsame | hmap
          · have h2 : t0 = t1 := Option.some.inj ((h0.symm.trans hsame.symm).trans h1)
            rw [← h2, hp]
            simp
          · rw [hmap, h0] at h1
            have h2 := Option.some.inj h1
            rw [← h2]
            simpa using hsnew
        · intro t hres2
          simp only [Except.ok.injEq, Option.some.injEq] at hres2
          rw [← hres2]
          simpa using hsnew
  by_cases hp : s == "Pendente"
  · simp only [updateStatusEndpoint, hp] at h
    simp only [if_true, Option.some.injEq] at h
    exact main TaskStatus.Pendente (by simp) h
  · by_cases hc : s == "Concluída"
    · simp [updateStatusEndpoint, hp, hc] at h
      exact main TaskStatus.Concluida (by simp) h
    · simp [updateStatusEndpoint, hp, hc] at h

/-- Witness for C8: setting a Pendente task to Concluída through the
endpoint leaves no task Vencida. -/
theorem endpoint_never_sets_overdue_witness :
    updateStatusEndpoint 9 (sampleStore 2 TaskStatus.Pendente) 2 "Concluída" =
      some ((taskUpdateStatus 9 (sampleStore 2 TaskStatus.Pendente) 2 TaskStatus.Concluida).1,
        (taskUpdateStatus 9 (sampleStore 2 TaskStatus.Pendente) 2 TaskStatus.Concluida).2) ∧
    ((taskUpdateStatus 9 (sampleStore 2 TaskStatus.Pendente) 2 TaskStatus.Concluida).2.tasks.length =
        (sampleStore 2 TaskStatus.Pendente).tasks.length ∧
      (∀ (i : Nat) (t0 t1 : TaskEntity),
        (sampleStore 2 TaskStatus.Pendente).tasks[i]? = some t0 →
        (taskUpdateStatus 9 (sampleStore 2 TaskStatus.Pendente) 2
            TaskStatus.Concluida).2.tasks[i]? = some t1 →
        t0.status = TaskStatus.Pendente → t1.status ≠ TaskStatus.Vencida) ∧
      (∀ t, (taskUpdateStatus 9 (sampleStore 2 TaskStatus.Pendente) 2
          TaskStatus.Concluida).1 = .ok (some t) → t.status ≠ TaskStatus.Vencida)) :=
  ⟨by rfl,
   endpoint_never_sets_overdue 9 (sampleStore 2 TaskStatus.Pendente) 2 "Concluída"
     (taskUpdateStatus 9 (sampleStore 2 TaskStatus.Pendente) 2 TaskStatus.Concluida).1
     (taskUpdateStatus 9 (sampleStore 2 TaskStatus.Pendente) 2 TaskStatus.Concluida).2
     (by rfl)⟩

/-- Claim C7, amended: under the Próximas-ao-vencimento period filter a
task is retained iff it is Pendente, has a due-date, and its due-moment —
the due-date at the given due-time, or at local midnight (00:00) when no
due-time is set — falls within the inclusive window [now, now + 48h]. The
filter never applies the 23:59:59 end-of-day default of the sweep. -/
theorem proximas_filter_characterization (now : Int) (l : List TaskEntity)
    (t : TaskEntity) :
    t ∈ applyPeriodFilter "Próximas ao vencimento" now l ↔
      (t ∈ l ∧ t.status = TaskStatus.Pendente ∧
        ∃ dv, t.dataVencimento = some dv ∧
          now ≤ proximasDueMs dv t.horaVencimento ∧
          proximasDueMs dv t.horaVencimento ≤ now + 48 * msPerHour) := by
  simp only [applyPeriodFilter, List.mem_filter]
  cases hd : t.dataVencimento with
  | none => simp [hd]
  | some dv =>
    simp [hd, Bool.and_eq_true, decide_eq_true_iff, beq_iff_eq, and_assoc]
    tauto

/-- The concrete task of the C7 counterexample: Pendente, due on
11/10/2026 with no due-time. -/
def c7Task : TaskEntity :=
  { id := 1, titulo := "a", descricao := none,
    dataVencimento := some { day := 11, month := 10, year := 2026 },
    horaVencimento := none, importancia := TaskImportance.Alta,
    status := TaskStatus.Pendente, dataCriacao := 0, dataAtualizacao := 0 }

/-- The moment of the C7 counterexample: noon of 11/10/2026. -/
def c7Now : Int := 1791720000000

/-- Counterexample to C7 as stated: at noon of its due day, a Pendente
task with no due-time has its 23:59:59 effective due-moment inside
[now, now + 48h], yet the filter drops it (the filter compares against
midnight, which is already in the past). -/
theorem proximas_filter_counterexample :
    ¬ (c7Task ∈ applyPeriodFilter "Próximas ao vencimento" c7Now [c7Task] ↔
        (c7Task ∈ [c7Task] ∧ c7Task.status = TaskStatus.Pendente ∧
          ∃ dv, c7Task.dataVencimento = some dv ∧
            c7Now ≤ effectiveDueMs dv c7Task.horaVencimento ∧
            effectiveDueMs dv c7Task.horaVencimento ≤ c7Now + 48 * msPerHour)) := by
  intro h
  have hmem : c7Task ∈ applyPeriodFilter "Próximas ao vencimento" c7Now [c7Task] :=
    h.mpr ⟨List.mem_singleton.mpr rfl, rfl,
      ⟨{ day := 11, month := 10, year := 2026 }, rfl, by decide, by decide⟩⟩
  exact absurd hmem (by decide)

theorem taskComparison_due_neg (a b : TaskEntity) :
    taskComparison "Data de vencimento" b a = -taskComparison "Data de vencimento" a b := by
  simp only [taskComparison]
  cases a.dataVencimento <;> cases b.dataVencimento <;> simp

theorem taskComparison_due_trans (a b c : TaskEntity)
    (h1 : taskComparison "Data de vencimento" a b ≤ 0)
    (h2 : taskComparison "Data de vencimento" b c ≤ 0) :
    taskComparison "Data de vencimento" a c ≤ 0 := by
  simp only [taskComparison] at h1 h2 ⊢
  rcases had : a.dataVencimento with _ | da <;>
    rcases hbd : b.dataVencimento with _ | db <;>
      rcases hcd : c.dataVencimento with _ | dc <;>
        (simp_all; try omega)

theorem taskComparison_due_total (a b : TaskEntity) :
    taskComparison "Data de vencimento" a b ≤ 0 ∨
      taskComparison "Data de vencimento" b a ≤ 0 := by
  simp only [taskComparison]
  cases a.dataVencimento <;> cases b.dataVencimento <;> (simp; try omega)

/-- Claim C6, amended: when sorting by due-date the direction flips the
whole comparator sign, the no-date tie-break included: with direction
Crescente every task without a due-date is placed after every task with
one, but with any other direction (Decrescente) every task without a
due-date is placed before every task with one. -/
theorem duedate_sort_nodate_placement (f : TaskListFilters) (now : Int) (st : Store)
    (hOrder : f.orderBy = "Data de vencimento") :
    (f.orderDirection = "Crescente" →
      (taskList f now st).Pairwise
        (fun a b => ¬(a.dataVencimento = none ∧ b.dataVencimento ≠ none))) ∧
    (f.orderDirection ≠ "Crescente" →
      (taskList f now st).Pairwise
        (fun a b => ¬(a.dataVencimento ≠ none ∧ b.dataVencimento = none))) := by
  have hsorted : (taskList f now st).Pairwise
      (fun a b => (decide (taskCmp f a b ≤ 0)) = true) := by
    refine List.sorted_mergeSort ?_ ?_ _
    · intro a b c h1 h2
      simp only [decide_eq_true_iff] at h1 h2 ⊢
      simp only [taskCmp, hOrder] at h1 h2 ⊢
      by_cases hdir : f.orderDirection == "Crescente"
      · simp only [hdir, if_true] at h1 h2 ⊢
        exact taskComparison_due_trans a b c h1 h2
      · simp only [hdir, if_false, Bool.false_eq_true] at h1 h2 ⊢
        rw [taskComparison_due_neg] at h1 h2 ⊢
        have := taskComparison_due_trans c b a (by omega) (by omega)
        omega
    · intro a b
      simp only [Bool.or_eq_true, decide_eq_true_iff]
      simp only [taskCmp, hOrder]
      by_cases hdir : f.orderDirection == "Crescente"
      · simp only [hdir, if_true]
        exact taskComparison_due_total a b
      · simp only [hdir, if_false, Bool.false_eq_true]
        rw [taskComparison_due_neg a b]
        rcases taskComparison_due_total a b with h | h <;> omega
  constructor
  · intro hdir
    refine hsorted.imp ?_
    intro a b hab
    rintro ⟨ha, hb⟩
    cases hbd : b.dataVencimento with
    | none => exact hb hbd
    | some dv =>
      simp only [decide_eq_true_iff, taskCmp, hOrder, hdir] at hab
      simp [taskComparison, ha, hbd] at hab
  · intro hdir
    refine hsorted.imp ?_
    intro a b hab
    rintro ⟨ha, hb⟩
    cases had : a.dataVencimento with
    | none => exact ha had
    | some dv =>
      have hdir2 : (f.orderDirection == "Crescente") = false := by
        simpa using hdir
      simp only [decide_eq_true_iff, taskCmp, hOrder, hdir2] at hab
      simp [taskComparison, had, hb] at hab

/-- A dated task for the C6 instances. -/
def c6Dated : TaskEntity :=
  { id := 1, titulo := "a", descricao := none,
    dataVencimento := some { day := 10, month := 10, year := 2026 },
    horaVencimento := none, importancia := TaskImportance.Alta,
    status := TaskStatus.Pendente, dataCriacao := 0, dataAtualizacao := 0 }

/-- An undated task for the C6 instances. -/
def c6NoDate : TaskEntity :=
  { id := 2, titulo := "b", descricao := none, dataVencimento := none,
    horaVencimento := none, importancia := TaskImportance.Alta,
    status := TaskStatus.Pendente, dataCriacao := 0, dataAtualizacao := 0 }

/-- A store holding a dated and an undated task. -/
def c6Store : Store := { tasks := [c6Dated, c6NoDate], history := [], nextId := 3 }

/-- Due-date sorting, descending direction. -/
def c6Desc : TaskListFilters :=
  { filterStatus := "Todas", filterImportance := "Todas", filterPeriod := "Todas",
    orderBy := "Data de vencimento", orderDirection := "Decrescente", searchTerm := none }

/-- Due-date sorting, ascending direction. -/
def c6Cre : TaskListFilters :=
  { filterStatus := "Todas", filterImportance := "Todas", filterPeriod := "Todas",
    orderBy := "Data de vencimento", orderDirection := "Crescente", searchTerm := none }

unseal List.merge List.mergeSort

/-- Counterexample to C6 as stated: with direction Decrescente, the
undated task is placed before the dated one, so the no-date-last placement
is not a direction-independent tie-break. -/
theorem duedate_sort_counterexample :
    ¬ ((taskList c6Desc 0 c6Store).Pairwise
        (fun a b => ¬(a.dataVencimento = none ∧ b.dataVencimento ≠ none))) := by
  decide

/-- Witness for C6 (amended) at the two concrete direction values. -/
theorem duedate_sort_nodate_placement_witness :
    c6Cre.orderBy = "Data de vencimento" ∧ c6Cre.orderDirection = "Crescente" ∧
    c6Desc.orderBy = "Data de vencimento" ∧ c6Desc.orderDirection ≠ "Crescente" ∧
    (taskList c6Cre 0 c6Store).Pairwise
      (fun a b => ¬(a.dataVencimento = none ∧ b.dataVencimento ≠ none)) ∧
    (taskList c6Desc 0 c6Store).Pairwise
      (fun a b => ¬(a.dataVencimento ≠ none ∧ b.dataVencimento = none)) :=
  ⟨rfl, rfl, rfl, by decide,
   (duedate_sort_nodate_placement c6Cre 0 c6Store rfl).1 rfl,
   (duedate_sort_nodate_placement c6Desc 0 c6Store rfl).2 (by decide)⟩

theorem applyPeriodFilter_subset (period : String) (now : Int) (l : List TaskEntity) :
    ∀ t ∈ applyPeriodFilter period now l, t ∈ l := by
  intro t ht
  simp only [applyPeriodFilter] at ht
  split_ifs at ht
  all_goals first
    | exact ht
    | exact (List.mem_filter.mp ht).1

theorem taskList_mem_tasks (f : TaskListFilters) (now : Int) (st : Store) :
    ∀ t ∈ taskList f now st, t ∈ st.tasks := by
  intro t ht
  rw [taskList, List.mem_mergeSort] at ht
  have h4 : t ∈ periodFilterStage f.filterPeriod now
      (importanceFilterStage f.filterImportance
        (statusFilterStage f.filterStatus st.tasks)) := by
    rcases hs : f.searchTerm with _ | s
    · simpa [searchFilterStage, hs] using ht
    · rw [hs] at ht
      simp only [searchFilterStage] at ht
      split_ifs at ht
      · exact ht
      · exact (List.mem_filter.mp ht).1
  have h3 : t ∈ importanceFilterStage f.filterImportance
      (statusFilterStage f.filterStatus st.tasks) := by
    simp only [periodFilterStage] at h4
    split_ifs at h4
    · exact h4
    · exact applyPeriodFilter_subset _ _ _ _ h4
  have h2 : t ∈ statusFilterStage f.filterStatus st.tasks := by
    simp only [importanceFilterStage] at h3
    split_ifs at h3
    · exact h3
    · exact (List.mem_filter.mp h3).1
  simp only [statusFilterStage] at h2
  split_ifs at h2
  · exact h2
  · exact (List.mem_filter.mp h2).1

/-- Claim C5: the history log is append-only across every operation — each
mutating operation only appends a (possibly empty) suffix to the existing
log — and after deleting an existing task its history still holds all
prior entries plus one final Exclusão entry with null field and values,
while the task itself is gone from taskGet and from every taskList result. -/
theorem history_append_only (now : Int) (st : Store) (cd : TaskCreateRequest)
    (uid : Nat) (ud : TaskUpdateRequest) (sid : Nat) (s : TaskStatus) (did : Nat)
    (dtid : Nat) (t0 : TaskEntity)
    (hnodup : (st.tasks.map TaskEntity.id).Nodup)
    (hfind : taskGet st dtid = some t0) :
    (∃ tl, (taskCreate now st cd).2.history = st.history ++ tl) ∧
    (∃ tl, (taskUpdate now st uid ud).2.history = st.history ++ tl) ∧
    (∃ tl, (taskUpdateStatus now st sid s).2.history = st.history ++ tl) ∧
    (∃ tl, (taskDelete now st did).2.history = st.history ++ tl) ∧
    (∃ tl, (taskCheckOverdue now st).history = st.history ++ tl) ∧
    (taskDelete now st dtid).1 = true ∧
    (taskDelete now st dtid).2.history =
      st.history ++ [exclusaoEntry st.nextId dtid now] ∧
    (taskGetHistory (taskDelete now st dtid).2 dtid none none).Perm
      (st.history.filter (fun h => h.idTarefa == dtid) ++
        [exclusaoEntry st.nextId dtid now]) ∧
    taskGet (taskDelete now st dtid).2 dtid = none ∧
    (∀ (f : TaskListFilters) (u : TaskEntity),
      u ∈ taskList f now (taskDelete now st dtid).2 → u.id ≠ dtid) := by
  simp only [taskGet] at hfind
  have hdel : taskDelete now st dtid =
      (true,
       { tasks := removeFirst (fun t => t.id == dtid) st.tasks,
         history := st.history ++ [exclusaoEntry st.nextId dtid now],
         nextId := st.nextId + 1 }) := by
    simp [taskDelete, hfind, recordHistory, exclusaoEntry]
  refine ⟨?_, ?_, ?_, ?_, ?_, ?_, ?_, ?_, ?_, ?_⟩
  · cases hv : validateFields cd.titulo cd.descricao with
    | some e => exact ⟨[], by simp [taskCreate, hv]⟩
    | none =>
      refine ⟨[mkEntry (st.nextId + 1) st.nextId now "Criação" none none none "Manual"], ?_⟩
      simp [taskCreate, hv, recordHistory, mkEntry]
  · cases hfu : st.tasks.find? (fun t => t.id == uid) with
    | none => exact ⟨[], by simp [taskUpdate, hfu]⟩
    | some oldT =>
      cases hv : validateFields ud.titulo ud.descricao with
      | some e => exact ⟨[], by simp [taskUpdate, hfu, hv]⟩
      | none =>
        cases hr : resetCond now oldT.status ud.dataVencimento with
        | false =>
          obtain ⟨-, es, hh, -, -⟩ := recordEdits_spec now uid (changedFields oldT ud) st
          exact ⟨es, by simp [taskUpdate, hfu, hv, hr, hh]⟩
        | true =>
          obtain ⟨-, es, hh, -, -⟩ :=
            recordEdits_spec now uid (changedFields oldT ud)
              (recordHistory now st uid "Alteração de Status" (some "status")
                (some (statusStr .Vencida)) (some (statusStr .Pendente)) "Automática")
          refine ⟨mkEntry st.nextId uid now "Alteração de Status" (some "status")
            (some "Vencida") (some "Pendente") "Automática" :: es, ?_⟩
          simp only [taskUpdate, hfu, hv, hr, if_true]
          simpa [recordHistory, statusStr, mkEntry] using hh
  · cases hfs : st.tasks.find? (fun t => t.id == sid) with
    | none => exact ⟨[], by simp [taskUpdateStatus, hfs]⟩
    | some oldT =>
      by_cases hg : (oldT.status == TaskStatus.Vencida && s == TaskStatus.Pendente) = true
      · exact ⟨[], by simp [taskUpdateStatus, hfs, hg]⟩
      · refine ⟨[mkEntry st.nextId sid now "Alteração de Status" (some "status")
          (some (statusStr oldT.status)) (some (statusStr s)) "Manual"], ?_⟩
        simp [taskUpdateStatus, hfs, hg, recordHistory, mkEntry]
  · cases hfd : st.tasks.find? (fun t => t.id == did) with
    | none => exact ⟨[], by simp [taskDelete, hfd]⟩
    | some oldT =>
      exact ⟨[mkEntry st.nextId did now "Exclusão" none none none "Manual"],
        by simp [taskDelete, hfd, recordHistory, mkEntry]⟩
  · exact ⟨(checkOverdueAux now st.nextId st.tasks).2.1, rfl⟩
  · rw [hdel]
  · rw [hdel]
  · rw [hdel]
    simp only [taskGetHistory]
    refine (List.mergeSort_perm _ _).trans ?_
    rw [List.filter_append]
    have : (List.filter (fun h => h.idTarefa == dtid) [exclusaoEntry st.nextId dtid now]) =
        [exclusaoEntry st.nextId dtid now] := by
      simp [exclusaoEntry]
    rw [this]
  · rw [hdel]
    simp only [taskGet]
    rw [List.find?_eq_none]
    intro u hu
    have := removeFirst_id_ne dtid st.tasks hnodup u hu
    simpa using this
  · intro f u hu
    rw [hdel] at hu
    have hmem := taskList_mem_tasks f now _ u hu
    exact removeFirst_id_ne dtid st.tasks hnodup u hmem

/-- A prior Criação entry for the C5 witness store. -/
def c5PriorEntry : HistoryEntry := mkEntry 0 1 0 "Criação" none none none "Manual"

/-- The C5 witness store: one Pendente task with one prior history entry. -/
def c5st : Store :=
  { tasks := [sampleTask 1 TaskStatus.Pendente], history := [c5PriorEntry], nextId := 2 }

/-- Witness for C5 at a concrete store with a prior entry: every operation
extends the log, and deletion keeps the prior entry plus the Exclusão one
while the task disappears from lookup and listing. -/
theorem history_append_only_witness :
    (c5st.tasks.map TaskEntity.id).Nodup ∧
    taskGet c5st 1 = some (sampleTask 1 TaskStatus.Pendente) ∧
    ((∃ tl, (taskCreate 9 c5st
        ⟨"x", none, none, none, TaskImportance.Alta⟩).2.history = c5st.history ++ tl) ∧
      (∃ tl, (taskUpdate 9 c5st 1
        ⟨"a", none, none, none, TaskImportance.Alta⟩).2.history = c5st.history ++ tl) ∧
      (∃ tl, (taskUpdateStatus 9 c5st 1 TaskStatus.Concluida).2.history =
        c5st.history ++ tl) ∧
      (∃ tl, (taskDelete 9 c5st 1).2.history = c5st.history ++ tl) ∧
      (∃ tl, (taskCheckOverdue 9 c5st).history = c5st.history ++ tl) ∧
      (taskDelete 9 c5st 1).1 = true ∧
      (taskDelete 9 c5st 1).2.history =
        c5st.history ++ [exclusaoEntry c5st.nextId 1 9] ∧
      (taskGetHistory (taskDelete 9 c5st 1).2 1 none none).Perm
        (c5st.history.filter (fun h => h.idTarefa == 1) ++
          [exclusaoEntry c5st.nextId 1 9]) ∧
      taskGet (taskDelete 9 c5st 1).2 1 = none ∧
      (∀ (f : TaskListFilters) (u : TaskEntity),
        u ∈ taskList f 9 (taskDelete 9 c5st 1).2 → u.id ≠ 1)) :=
  ⟨by decide, by decide,
   history_append_only 9 c5st ⟨"x", none, none, none, TaskImportance.Alta⟩ 1
     ⟨"a", none, none, none, TaskImportance.Alta⟩ 1 TaskStatus.Concluida 1 1
     (sampleTask 1 TaskStatus.Pendente) (by decide) (by decide)⟩

end TaskMgmt
